import Mathlib

/-!
Verification of the conversational loop of the `uncensored-models` chat client.

The development embeds the functions of `chat.py` (the per-iteration body of
`chat`, its prompt construction, and `select_model`) together with the static
model table of `config.py`, and proves the behavioural properties stated in
the specification: prompt rendering, history alternation, command handling,
error recovery, and the trimmed-content invariant of reachable histories.
-/

/-! ## Python string primitives

`strip` and `lower` embed Python's `str.strip()` and `str.lower()` on the
character lists underlying Lean strings (whitespace restricted to the ASCII
whitespace characters, which is what every input relevant here contains). -/

/-- Characters removed by `str.strip()`: ASCII whitespace. -/
def isWs (c : Char) : Bool := c.isWhitespace

/-- Drop leading and trailing whitespace from a character list. -/
def stripChars (l : List Char) : List Char :=
  List.rdropWhile isWs (l.dropWhile isWs)

/-- Embedding of Python `str.strip()`. -/
def strip (s : String) : String := ⟨stripChars s.data⟩

/-- Embedding of Python `str.lower()` (ASCII case folding). -/
def lower (s : String) : String := ⟨s.data.map Char.toLower⟩

/-! ## Data model -/

/-- Role tag of a chat message (`msg["role"]` in `chat.py`). -/
inductive Role where
  | user : Role
  | assistant : Role
deriving DecidableEq, Repr

/-- One entry of the conversation history: `{"role": ..., "content": ...}`. -/
structure Message where
  role : Role
  content : String
deriving DecidableEq, Repr

/-- Result of one `subprocess.run(["ollama", "run", model, prompt], ...)`
invocation: exit status plus captured output streams. -/
structure RunResult where
  returncode : Int
  stdout : String
  stderr : String

/-- One entry of `config.MODELS`: identifier, display description, details. -/
structure ModelDescriptor where
  name : String
  description : String
  details : String
deriving DecidableEq, Repr

/-- The static model table `MODELS` of `config.py`. -/
def MODELS : List ModelDescriptor :=
  [ ⟨"dolphin-llama3:70b", "Dolphin Llama3 70B Uncensored",
     "BEST OVERALL - Highest quality, excellent reasoning (~40GB RAM)"⟩,
    ⟨"dolphin-mixtral:8x7b", "Dolphin Mixtral 8x7B Uncensored",
     "EXCELLENT - Top reasoning & instruction following (~26GB RAM)"⟩,
    ⟨"dolphin-llama3:34b", "Dolphin Llama3 34B Uncensored",
     "HIGH QUALITY - Great balance of quality and speed (~20GB RAM)"⟩,
    ⟨"dolphin-llama3:8b", "Dolphin Llama3 8B Uncensored",
     "Best 8B uncensored model - High quality, fast responses (~8GB RAM)"⟩,
    ⟨"dolphin-mistral:7b", "Dolphin Mistral 7B Uncensored",
     "Fast & reliable uncensored model, excellent general purpose (~8GB RAM)"⟩,
    ⟨"dolphin2.2-mistral:7b", "Dolphin 2.2 Mistral 7B Uncensored",
     "Refined uncensored version, excellent instruction following (~8GB RAM)"⟩,
    ⟨"wizardlm-uncensored:13b", "WizardLM Uncensored 13B",
     "Classic uncensored model, great for instructions and tasks (~13GB RAM)"⟩,
    ⟨"nous-hermes-llama2-uncensored:13b", "Nous Hermes Llama2 Uncensored 13B",
     "Reliable uncensored model, versatile and capable (~13GB RAM)"⟩,
    ⟨"orca2-uncensored:7b", "Orca 2 Uncensored 7B",
     "Fast uncensored model with good reasoning abilities (~8GB RAM)"⟩ ]

/-! ## Prompt construction (`chat.py` lines 131-138) -/

/-- The string a single message contributes to the prompt accumulator:
`"User: {content}\n"` or `"Assistant: {content}\n"` depending on the role. -/
def renderMsg (msg : Message) : String :=
  match msg.role with
  | Role.user => "User: " ++ msg.content ++ "\n"
  | Role.assistant => "Assistant: " ++ msg.content ++ "\n"

/-- The prompt built by the `for msg in conversation` loop followed by
`prompt += "Assistant: "`. -/
def buildPrompt (conversation : List Message) : String :=
  (conversation.foldl (fun prompt msg => prompt ++ renderMsg msg) "") ++ "Assistant: "

/-! ## One iteration of the chat loop (`chat.py` lines 106-159) -/

/-- Observable outcome of one iteration of the `while True` body of `chat`:
the conversation after the iteration, the exit signal (`some true` models
`return True` on `/models`, `some false` models the `break` that leads to
`return False`, `none` means the loop continues), the prompt passed to the
external runner if it was invoked, and the error text printed if the
invocation failed. -/
structure IterOutcome where
  conversation : List Message
  exitSignal : Option Bool
  invoked : Option String
  errPrinted : Option String
deriving DecidableEq

/-- One iteration of the loop body of `chat`, with the external
`ollama run` call abstracted as `runner : prompt ↦ RunResult`. -/
def chatStep (runner : String → RunResult) (conversation : List Message)
    (rawInput : String) : IterOutcome :=
  let user_input := strip rawInput
  if user_input = "" then
    ⟨conversation, none, none, none⟩
  else if lower user_input = "exit" ∨ lower user_input = "quit" then
    ⟨conversation, some false, none, none⟩
  else if user_input = "/clear" then
    ⟨[], none, none, none⟩
  else if user_input = "/models" then
    ⟨conversation, some true, none, none⟩
  else
    let conversation1 := conversation ++ [⟨Role.user, user_input⟩]
    let prompt := buildPrompt conversation1
    let result := runner prompt
    if result.returncode ≠ 0 then
      ⟨conversation1, none, some prompt, some result.stderr⟩
    else
      ⟨conversation1 ++ [⟨Role.assistant, strip result.stdout⟩], none, some prompt, none⟩

/-- Run the chat loop body over a list of input lines starting from a given
history, stopping when an iteration signals an exit, and return the final
conversation history. -/
def runChat (runner : String → RunResult) (conversation : List Message) :
    List String → List Message
  | [] => conversation
  | i :: is =>
    let s := chatStep runner conversation i
    match s.exitSignal with
    | some _ => s.conversation
    | none => runChat runner s.conversation is

/-- An input line that reaches the message branch of the loop body: nonempty
after stripping and not one of the four recognized commands. -/
def isMessageInput (raw : String) : Prop :=
  strip raw ≠ "" ∧ lower (strip raw) ≠ "exit" ∧ lower (strip raw) ≠ "quit" ∧
    strip raw ≠ "/clear" ∧ strip raw ≠ "/models"

instance (raw : String) : Decidable (isMessageInput raw) := by
  unfold isMessageInput; infer_instance

/-- Every turn of a run succeeds: at each message input, the runner returns
exit status `0` on the prompt actually sent for it. -/
def turnsSucceed (runner : String → RunResult) :
    List Message → List String → Prop
  | _, [] => True
  | c, i :: is =>
    (runner (buildPrompt (c ++ [⟨Role.user, strip i⟩]))).returncode = 0 ∧
      turnsSucceed runner (chatStep runner c i).conversation is

/-! ## Model selector (`chat.py` lines 46-73) -/

/-- Outcome of `select_model`: the returned identifier (`none` models the
uncaught `IndexError` that `MODELS[0]` would raise on an empty registry,
which cannot happen for the configured table) and whether the
`"Invalid choice"` fallback notice was printed. -/
structure SelectResult where
  name : Option String
  fallbackNotice : Bool
deriving DecidableEq, Repr

/-- The numbered dictionary `{str(i+1): model for i, model in enumerate(models)}`
as an association list in insertion order. -/
def model_dict (models : List ModelDescriptor) : List (String × ModelDescriptor) :=
  models.enum.map (fun p => (Nat.repr (p.1 + 1), p.2))

/-- Embedding of `select_model`, parameterised by the registry it reads. -/
def select_model (models : List ModelDescriptor) (rawChoice : String) : SelectResult :=
  let choice := strip rawChoice
  match (model_dict models).find? (fun p => p.1 == choice) with
  | some p => ⟨some p.2.name, false⟩
  | none => ⟨(models.head?).map ModelDescriptor.name, true⟩

/-! ## Specification-side prompt rendering (for the refinement claim)

`renderedPromptSpec` follows the specification's words: each message rendered
as `"<RoleLabel>: <content>"`, the renderings joined by newlines, with a
trailing `"Assistant: "` cue and no trailing newline after it. -/

/-- A message rendered as `"<RoleLabel>: <content>"`, per the specification. -/
def renderSpecLine (msg : Message) : String :=
  match msg.role with
  | Role.user => "User: " ++ msg.content
  | Role.assistant => "Assistant: " ++ msg.content

/-- The specification's rendered prompt: all history lines plus the
`"Assistant: "` cue, joined by newlines. -/
def renderedPromptSpec (history : List Message) : String :=
  String.intercalate "\n" (history.map renderSpecLine ++ ["Assistant: "])

/-- The role sequence of a history of `n` complete turns: strictly
alternating `user`, `assistant`, starting with `user`. -/
def rolePattern : Nat → List Role
  | 0 => []
  | n + 1 => Role.user :: Role.assistant :: rolePattern n

/-- The concatenation of the per-message contributions to the prompt
accumulator, used to reason about `buildPrompt`. -/
def promptBody : List Message → String
  | [] => ""
  | m :: t => renderMsg m ++ promptBody t

/-- A message content as maintained by the loop: produced by stripping, and,
for a user message, classified past every command check before being
appended. -/
def GoodMsg (m : Message) : Prop :=
  strip m.content = m.content ∧
  (m.role = Role.user →
    m.content ≠ "" ∧ lower m.content ≠ "exit" ∧ lower m.content ≠ "quit" ∧
      m.content ≠ "/clear" ∧ m.content ≠ "/models")

/-- A concrete always-succeeding runner, used to instantiate theorems. -/
def runnerOK : String → RunResult := fun _ => ⟨0, " ok ", ""⟩

/-- A concrete always-failing runner, used to instantiate theorems. -/
def runnerFail : String → RunResult := fun _ => ⟨1, "", "model not found"⟩

/-- The decimal digit list of a natural number, most significant first,
mirroring the digits `Nat.repr` produces. -/
def natDecimal (n : Nat) : List Char :=
  if n < 10 then [Nat.digitChar n]
  else natDecimal (n / 10) ++ [Nat.digitChar (n % 10)]
termination_by n
decreasing_by exact Nat.div_lt_self (by omega) (by omega)

/-! ## String and list helper lemmas -/

theorem foldl_render (c : List Message) : ∀ acc : String,
    c.foldl (fun p m => p ++ renderMsg m) acc = acc ++ promptBody c := by
  induction c with
  | nil => intro acc; simp [promptBody, String.append_empty]
  | cons m t ih =>
    intro acc
    simp only [List.foldl_cons, promptBody, ih, String.append_assoc]

theorem buildPrompt_eq (c : List Message) :
    buildPrompt c = promptBody c ++ "Assistant: " := by
  unfold buildPrompt
  rw [foldl_render, String.empty_append]

theorem promptBody_append (a b : List Message) :
    promptBody (a ++ b) = promptBody a ++ promptBody b := by
  induction a with
  | nil => simp [promptBody, String.empty_append]
  | cons m t ih =>
    show renderMsg m ++ promptBody (t ++ b) = renderMsg m ++ promptBody t ++ promptBody b
    rw [ih, String.append_assoc]

theorem renderMsg_eq (m : Message) : renderMsg m = renderSpecLine m ++ "\n" := by
  cases hm : m.role <;> simp [renderMsg, renderSpecLine, hm]

theorem intercalate_go_append (s a₁ : String) : ∀ (as : List String) (a₂ : String),
    String.intercalate.go (a₁ ++ a₂) s as = a₁ ++ String.intercalate.go a₂ s as := by
  intro as
  induction as with
  | nil => intro a₂; rfl
  | cons b bs ih =>
    intro a₂
    show String.intercalate.go (a₁ ++ a₂ ++ s ++ b) s bs
        = a₁ ++ String.intercalate.go (a₂ ++ s ++ b) s bs
    rw [String.append_assoc, String.append_assoc, ← String.append_assoc a₂ s b, ih]

theorem intercalate_cons_of_ne_nil (s x : String) (l : List String) (hl : l ≠ []) :
    String.intercalate s (x :: l) = x ++ s ++ String.intercalate s l := by
  cases l with
  | nil => exact absurd rfl hl
  | cons b bs =>
    show String.intercalate.go (x ++ s ++ b) s bs = x ++ s ++ String.intercalate.go b s bs
    exact intercalate_go_append s (x ++ s) bs b

theorem buildPrompt_eq_spec (c : List Message) :
    buildPrompt c = renderedPromptSpec c := by
  induction c with
  | nil =>
    rw [buildPrompt_eq]
    show "" ++ "Assistant: " = renderedPromptSpec []
    rw [String.empty_append]
    rfl
  | cons m t ih =>
    rw [buildPrompt_eq, promptBody, String.append_assoc, ← buildPrompt_eq, ih]
    show renderMsg m ++ renderedPromptSpec t = renderedPromptSpec (m :: t)
    unfold renderedPromptSpec
    rw [List.map_cons, List.cons_append,
      intercalate_cons_of_ne_nil _ _ _ (by simp), renderMsg_eq, String.append_assoc]

/-! ## Branch lemmas for one loop iteration -/

theorem chatStep_empty (runner : String → RunResult) (c : List Message)
    (raw : String) (h : strip raw = "") :
    chatStep runner c raw = ⟨c, none, none, none⟩ := by
  simp [chatStep, h]

theorem chatStep_exit (runner : String → RunResult) (c : List Message)
    (raw : String)
    (h : lower (strip raw) = "exit" ∨ lower (strip raw) = "quit") :
    chatStep runner c raw = ⟨c, some false, none, none⟩ := by
  have hne : strip raw ≠ "" := by
    intro he
    rw [he] at h
    revert h
    decide
  simp only [chatStep]
  rw [if_neg hne, if_pos h]

theorem chatStep_clear (runner : String → RunResult) (c : List Message)
    (raw : String) (h : strip raw = "/clear") :
    chatStep runner c raw = ⟨[], none, none, none⟩ := by
  simp [chatStep, h]
  decide

theorem chatStep_models (runner : String → RunResult) (c : List Message)
    (raw : String) (h : strip raw = "/models") :
    chatStep runner c raw = ⟨c, some true, none, none⟩ := by
  simp [chatStep, h]
  decide

theorem chatStep_message_ok (runner : String → RunResult) (c : List Message)
    (raw : String) (h : isMessageInput raw)
    (hok : (runner (buildPrompt (c ++ [⟨Role.user, strip raw⟩]))).returncode = 0) :
    chatStep runner c raw =
      ⟨c ++ [⟨Role.user, strip raw⟩,
         ⟨Role.assistant,
           strip (runner (buildPrompt (c ++ [⟨Role.user, strip raw⟩]))).stdout⟩],
       none, some (buildPrompt (c ++ [⟨Role.user, strip raw⟩])), none⟩ := by
  obtain ⟨h1, h2, h3, h4, h5⟩ := h
  simp only [chatStep]
  rw [if_neg h1, if_neg (not_or.mpr ⟨h2, h3⟩), if_neg h4, if_neg h5,
    if_neg (fun hne => hne hok)]
  simp

theorem chatStep_message_fail (runner : String → RunResult) (c : List Message)
    (raw : String) (h : isMessageInput raw)
    (hfail : (runner (buildPrompt (c ++ [⟨Role.user, strip raw⟩]))).returncode ≠ 0) :
    chatStep runner c raw =
      ⟨c ++ [⟨Role.user, strip raw⟩], none,
        some (buildPrompt (c ++ [⟨Role.user, strip raw⟩])),
        some (runner (buildPrompt (c ++ [⟨Role.user, strip raw⟩]))).stderr⟩ := by
  obtain ⟨h1, h2, h3, h4, h5⟩ := h
  simp only [chatStep]
  rw [if_neg h1, if_neg (not_or.mpr ⟨h2, h3⟩), if_neg h4, if_neg h5, if_pos hfail]

/-! ## Claim theorems: prompt rendering and command handling -/

/-- Claim C1: whenever the loop body reaches the external invocation, the
prompt it passes to the runner is exactly the specification rendering of the
(necessarily non-empty) history at that point: every message rendered as
`"<RoleLabel>: <content>"`, joined by newlines, with a final
newline-separated `"Assistant: "` cue and nothing after it. -/
theorem prompt_rendering_invariant (runner : String → RunResult)
    (conversation : List Message) (raw : String) (h : isMessageInput raw) :
    (chatStep runner conversation raw).invoked
      = some (renderedPromptSpec (conversation ++ [⟨Role.user, strip raw⟩])) := by
  by_cases hrc :
      (runner (buildPrompt (conversation ++ [⟨Role.user, strip raw⟩]))).returncode = 0
  · rw [chatStep_message_ok runner conversation raw h hrc, buildPrompt_eq_spec]
  · rw [chatStep_message_fail runner conversation raw h hrc, buildPrompt_eq_spec]

/-- Witness for C1: a concrete turn on a one-message history. -/
theorem prompt_rendering_invariant_witness :
    isMessageInput "how are you" ∧
    (chatStep runnerOK [⟨Role.user, "hi"⟩] "how are you").invoked
      = some (renderedPromptSpec [⟨Role.user, "hi"⟩, ⟨Role.user, "how are you"⟩]) := by
  refine ⟨by decide, ?_⟩
  have h := prompt_rendering_invariant runnerOK [⟨Role.user, "hi"⟩] "how are you" (by decide)
  rw [show strip "how are you" = "how are you" from by decide] at h
  simpa using h

/-- Claim C2 counterexample: with history `[user: "hi"]` and next input
`"how are you"`, the prompt built before the call is NOT
`"User: hi\nAssistant: \nUser: how are you\nAssistant: "`: the code inserts
no blank `Assistant` line for a turn that has no assistant message. -/
theorem scenario_prompt_cex :
    (chatStep runnerOK [⟨Role.user, "hi"⟩] "how are you").invoked
      ≠ some "User: hi\nAssistant: \nUser: how are you\nAssistant: " := by
  decide

/-- Claim C2 (amended): with history `[user: "hi"]` and next input
`"how are you"`, the rendered prompt built before invoking the runner is
`"User: hi\nUser: how are you\nAssistant: "` — only messages actually in
the history are rendered, so no blank `Assistant` line appears. -/
theorem scenario_prompt_amended :
    (chatStep runnerOK [⟨Role.user, "hi"⟩] "how are you").invoked
      = some "User: hi\nUser: how are you\nAssistant: " := by
  decide

/-- Claim C6: an input whose trimmed form is `/models` yields the restart
signal (`chat` returns `True`) and appends nothing to the history. -/
theorem models_command_restarts (runner : String → RunResult)
    (conversation : List Message) (raw : String) (h : strip raw = "/models") :
    (chatStep runner conversation raw).exitSignal = some true ∧
    (chatStep runner conversation raw).conversation = conversation := by
  rw [chatStep_models runner conversation raw h]
  exact ⟨rfl, rfl⟩

/-- Witness for C6 at the padded input `" /models "`. -/
theorem models_command_restarts_witness :
    strip " /models " = "/models" ∧
    (chatStep runnerOK [⟨Role.user, "x"⟩] " /models ").exitSignal = some true ∧
    (chatStep runnerOK [⟨Role.user, "x"⟩] " /models ").conversation
      = [⟨Role.user, "x"⟩] :=
  ⟨by decide, models_command_restarts runnerOK [⟨Role.user, "x"⟩] " /models " (by decide)⟩

/-- Claim C7: an input whose trimmed form case-insensitively equals `exit`
or `quit` yields the terminate signal (`chat` returns `False`) and leaves
the history untouched. -/
theorem exit_quit_terminates (runner : String → RunResult)
    (conversation : List Message) (raw : String)
    (h : lower (strip raw) = "exit" ∨ lower (strip raw) = "quit") :
    (chatStep runner conversation raw).exitSignal = some false ∧
    (chatStep runner conversation raw).conversation = conversation := by
  rw [chatStep_exit runner conversation raw h]
  exact ⟨rfl, rfl⟩

/-- Witness for C7 at the concrete input `" EXIT "`. -/
theorem exit_quit_terminates_witness :
    (lower (strip " EXIT ") = "exit" ∨ lower (strip " EXIT ") = "quit") ∧
    (chatStep runnerOK [⟨Role.user, "x"⟩] " EXIT ").exitSignal = some false ∧
    (chatStep runnerOK [⟨Role.user, "x"⟩] " EXIT ").conversation
      = [⟨Role.user, "x"⟩] :=
  ⟨by decide, exit_quit_terminates runnerOK [⟨Role.user, "x"⟩] " EXIT " (by decide)⟩

/-- Claim C8: an empty or whitespace-only input leaves the history unchanged
and never invokes the external runner. -/
theorem blank_input_no_effect (runner : String → RunResult)
    (conversation : List Message) (raw : String) (h : strip raw = "") :
    (chatStep runner conversation raw).conversation = conversation ∧
    (chatStep runner conversation raw).invoked = none := by
  rw [chatStep_empty runner conversation raw h]
  exact ⟨rfl, rfl⟩

/-- Witness for C8 at the whitespace-only input `"   "`. -/
theorem blank_input_no_effect_witness :
    strip "   " = "" ∧
    (chatStep runnerFail [⟨Role.user, "x"⟩] "   ").conversation
      = [⟨Role.user, "x"⟩] ∧
    (chatStep runnerFail [⟨Role.user, "x"⟩] "   ").invoked = none :=
  ⟨by decide, blank_input_no_effect runnerFail [⟨Role.user, "x"⟩] "   " (by decide)⟩

/-- Claim C9: an input whose trimmed form is `/clear` resets the history to
length `0` and does not terminate the loop. -/
theorem clear_resets_history (runner : String → RunResult)
    (conversation : List Message) (raw : String) (h : strip raw = "/clear") :
    (chatStep runner conversation raw).conversation = [] ∧
    (chatStep runner conversation raw).exitSignal = none := by
  rw [chatStep_clear runner conversation raw h]
  exact ⟨rfl, rfl⟩

/-- Witness for C9 on a two-message history. -/
theorem clear_resets_history_witness :
    strip "/clear" = "/clear" ∧
    (chatStep runnerOK [⟨Role.user, "hi"⟩, ⟨Role.assistant, "ok"⟩] "/clear").conversation
      = [] ∧
    (chatStep runnerOK [⟨Role.user, "hi"⟩, ⟨Role.assistant, "ok"⟩] "/clear").exitSignal
      = none :=
  ⟨by decide,
    clear_resets_history runnerOK [⟨Role.user, "hi"⟩, ⟨Role.assistant, "ok"⟩] "/clear"
      (by decide)⟩

/-! ## Claim theorems: failed turns and alternation -/

/-- Claim C3: when the external invocation of a turn fails (non-zero exit
status), the loop prints the captured error text, appends no assistant
message (the just-appended user message stays last), stays in the loop, and
the prompt of a subsequent successful turn still contains the retained user
message's rendered line. -/
theorem failed_turn_retains_user (runner runner2 : String → RunResult)
    (c : List Message) (i i2 : String)
    (hi : isMessageInput i)
    (hfail : (runner (buildPrompt (c ++ [⟨Role.user, strip i⟩]))).returncode ≠ 0)
    (hi2 : isMessageInput i2) :
    (chatStep runner c i).errPrinted
      = some (runner (buildPrompt (c ++ [⟨Role.user, strip i⟩]))).stderr ∧
    (chatStep runner c i).conversation = c ++ [⟨Role.user, strip i⟩] ∧
    (chatStep runner c i).exitSignal = none ∧
    ((runner2 (buildPrompt ((chatStep runner c i).conversation
        ++ [⟨Role.user, strip i2⟩]))).returncode = 0 →
      ∃ pre suf,
        (chatStep runner2 (chatStep runner c i).conversation i2).invoked
          = some (pre ++ ("User: " ++ strip i ++ "\n") ++ suf)) := by
  have hstep := chatStep_message_fail runner c i hi hfail
  refine ⟨by rw [hstep], by rw [hstep], by rw [hstep], ?_⟩
  intro hok
  rw [hstep] at hok ⊢
  refine ⟨promptBody c, renderMsg ⟨Role.user, strip i2⟩ ++ "Assistant: ", ?_⟩
  rw [chatStep_message_ok runner2 _ i2 hi2 hok]
  show some (buildPrompt (c ++ [⟨Role.user, strip i⟩] ++ [⟨Role.user, strip i2⟩])) = _
  rw [buildPrompt_eq, promptBody_append, promptBody_append]
  simp [promptBody, renderMsg, String.append_assoc, String.append_empty]

/-- Witness for C3: a failing turn on input `"hello"` followed by a
successful turn on `"again"`. -/
theorem failed_turn_retains_user_witness :
    (chatStep runnerFail [] "hello").errPrinted = some "model not found" ∧
    (chatStep runnerFail [] "hello").conversation = [⟨Role.user, "hello"⟩] ∧
    (∃ pre suf,
      (chatStep runnerOK (chatStep runnerFail [] "hello").conversation "again").invoked
        = some (pre ++ ("User: " ++ "hello" ++ "\n") ++ suf)) := by
  have h := failed_turn_retains_user runnerFail runnerOK [] "hello" "again"
    (by decide) (by decide) (by decide)
  refine ⟨?_, ?_, ?_⟩
  · rw [h.1]
    rfl
  · rw [h.2.1]
    decide
  · obtain ⟨pre, suf, hp⟩ := h.2.2.2 (by decide)
    rw [show strip "hello" = "hello" from by decide] at hp
    exact ⟨pre, suf, hp⟩

/-! ## Claim theorems: history alternation -/

theorem rolePattern_length (n : Nat) : (rolePattern n).length = 2 * n := by
  induction n with
  | zero => rfl
  | succ n ih =>
    simp only [rolePattern, List.length_cons, ih]
    omega

theorem runChat_cons (runner : String → RunResult) (c : List Message)
    (i : String) (is : List String) :
    runChat runner c (i :: is) =
      match (chatStep runner c i).exitSignal with
      | some _ => (chatStep runner c i).conversation
      | none => runChat runner (chatStep runner c i).conversation is := rfl

theorem runChat_roles (runner : String → RunResult) :
    ∀ (inputs : List String) (c : List Message),
      (∀ i ∈ inputs, isMessageInput i) → turnsSucceed runner c inputs →
      (runChat runner c inputs).map Message.role
        = c.map Message.role ++ rolePattern inputs.length := by
  intro inputs
  induction inputs with
  | nil =>
    intro c _ _
    simp [runChat, rolePattern]
  | cons i is ih =>
    intro c hmsg hsucc
    simp only [turnsSucceed] at hsucc
    obtain ⟨hok, hrest⟩ := hsucc
    have hi : isMessageInput i := hmsg i (by simp)
    have hstep := chatStep_message_ok runner c i hi hok
    rw [hstep] at hrest
    dsimp only at hrest
    rw [runChat_cons, hstep]
    dsimp only
    rw [ih _ (fun j hj => hmsg j (by simp [hj])) hrest]
    simp [rolePattern, List.append_assoc]

/-- Claim C4: after `N` successful non-command turns from an empty history,
the history holds exactly `2N` messages whose roles strictly alternate
`user`, `assistant`, ..., starting with `user`. -/
theorem successful_turns_alternate (runner : String → RunResult)
    (inputs : List String)
    (hmsg : ∀ i ∈ inputs, isMessageInput i)
    (hsucc : turnsSucceed runner [] inputs) :
    (runChat runner [] inputs).length = 2 * inputs.length ∧
    (runChat runner [] inputs).map Message.role = rolePattern inputs.length := by
  have h := runChat_roles runner inputs [] hmsg hsucc
  simp only [List.map_nil, List.nil_append] at h
  refine ⟨?_, h⟩
  have hlen := congrArg List.length h
  rwa [List.length_map, rolePattern_length] at hlen

/-- Witness for C4: two successful turns. -/
theorem successful_turns_alternate_witness :
    (runChat runnerOK [] ["hello", "there"]).length
      = 2 * (["hello", "there"] : List String).length ∧
    (runChat runnerOK [] ["hello", "there"]).map Message.role
      = rolePattern (["hello", "there"] : List String).length :=
  successful_turns_alternate runnerOK ["hello", "there"] (by decide) ⟨rfl, rfl, trivial⟩

/-! ## Idempotence of stripping, and the reachable-history invariant -/

theorem dropWhile_eq_cons_false (l : List Char) (c : Char) (t : List Char)
    (h : List.dropWhile isWs l = c :: t) : isWs c = false := by
  induction l with
  | nil => simp [List.dropWhile] at h
  | cons a as ih =>
    rw [List.dropWhile_cons] at h
    by_cases ha : isWs a = true
    · rw [if_pos ha] at h
      exact ih h
    · rw [if_neg ha] at h
      cases h
      simpa using ha

theorem stripChars_no_leading (l : List Char) :
    List.dropWhile isWs (stripChars l) = stripChars l := by
  unfold stripChars
  cases hr : List.rdropWhile isWs (List.dropWhile isWs l) with
  | nil => simp
  | cons b t =>
    have hpre := List.rdropWhile_prefix isWs (List.dropWhile isWs l)
    obtain ⟨t2, ht⟩ := hpre
    rw [hr] at ht
    have hb : isWs b = false :=
      dropWhile_eq_cons_false l b (t ++ t2) (by rw [← ht]; rfl)
    rw [List.dropWhile_cons, if_neg (by simp [hb])]

theorem stripChars_idem (l : List Char) :
    stripChars (stripChars l) = stripChars l := by
  show List.rdropWhile isWs (List.dropWhile isWs (stripChars l)) = stripChars l
  rw [stripChars_no_leading]
  show List.rdropWhile isWs (List.rdropWhile isWs (List.dropWhile isWs l)) = _
  rw [List.rdropWhile_idempotent]
  rfl

theorem strip_idem (s : String) : strip (strip s) = strip s := by
  show (⟨stripChars (stripChars s.data)⟩ : String) = ⟨stripChars s.data⟩
  rw [stripChars_idem]

theorem chatStep_preserves_good (runner : String → RunResult) (c : List Message)
    (raw : String) (hc : ∀ m ∈ c, GoodMsg m) :
    ∀ m ∈ (chatStep runner c raw).conversation, GoodMsg m := by
  by_cases h1 : strip raw = ""
  · rw [chatStep_empty runner c raw h1]
    exact hc
  by_cases h2 : lower (strip raw) = "exit" ∨ lower (strip raw) = "quit"
  · rw [chatStep_exit runner c raw h2]
    exact hc
  by_cases h3 : strip raw = "/clear"
  · rw [chatStep_clear runner c raw h3]
    simp
  by_cases h4 : strip raw = "/models"
  · rw [chatStep_models runner c raw h4]
    exact hc
  have hno := not_or.mp h2
  have hmsg : isMessageInput raw := ⟨h1, hno.1, hno.2, h3, h4⟩
  have hgu : GoodMsg ⟨Role.user, strip raw⟩ :=
    ⟨strip_idem raw, fun _ => ⟨h1, hno.1, hno.2, h3, h4⟩⟩
  by_cases hrc :
      (runner (buildPrompt (c ++ [⟨Role.user, strip raw⟩]))).returncode = 0
  · rw [chatStep_message_ok runner c raw hmsg hrc]
    intro m hm
    rcases List.mem_append.mp hm with hmc | hmn
    · exact hc m hmc
    · simp only [List.mem_cons, List.mem_singleton] at hmn
      rcases hmn with rfl | rfl | hmn
      · exact hgu
      · exact ⟨strip_idem _, fun hcontr => by cases hcontr⟩
      · cases hmn
  · rw [chatStep_message_fail runner c raw hmsg hrc]
    intro m hm
    rcases List.mem_append.mp hm with hmc | hmn
    · exact hc m hmc
    · simp only [List.mem_singleton] at hmn
      subst hmn
      exact hgu

theorem runChat_preserves_good (runner : String → RunResult) :
    ∀ (inputs : List String) (c : List Message), (∀ m ∈ c, GoodMsg m) →
      ∀ m ∈ runChat runner c inputs, GoodMsg m := by
  intro inputs
  induction inputs with
  | nil =>
    intro c hc
    exact hc
  | cons i is ih =>
    intro c hc
    rw [runChat_cons]
    split
    · exact chatStep_preserves_good runner c i hc
    · exact ih _ (chatStep_preserves_good runner c i hc)

/-- Claim C10: every message in a history reachable by the chat loop from an
empty history has content fixed under stripping, and if it is a user message
its content is nonempty and is none of the recognized commands (`exit` and
`quit` case-insensitively, `/clear` and `/models` literally). -/
theorem reachable_history_wellformed (runner : String → RunResult)
    (inputs : List String) (m : Message) (hm : m ∈ runChat runner [] inputs) :
    GoodMsg m :=
  runChat_preserves_good runner inputs [] (by simp) m hm

/-- Witness for C10: the user message of a concrete one-turn run. -/
theorem reachable_history_wellformed_witness :
    (⟨Role.user, "hello"⟩ : Message) ∈ runChat runnerOK [] ["hello"] ∧
    GoodMsg ⟨Role.user, "hello"⟩ :=
  ⟨by decide,
    reachable_history_wellformed runnerOK ["hello"] ⟨Role.user, "hello"⟩ (by decide)⟩

/-! ## Injectivity of the decimal keys of the selection dictionary -/

theorem natDecimal_lt (n : Nat) (h : n < 10) :
    natDecimal n = [Nat.digitChar n] := by
  rw [natDecimal, if_pos h]

theorem natDecimal_ge (n : Nat) (h : ¬n < 10) :
    natDecimal n = natDecimal (n / 10) ++ [Nat.digitChar (n % 10)] := by
  rw [natDecimal]
  rw [if_neg h]

theorem toDigitsCore_eq : ∀ (fuel n : Nat) (ds : List Char), n < fuel →
    Nat.toDigitsCore 10 fuel n ds = natDecimal n ++ ds := by
  intro fuel
  induction fuel with
  | zero => intro n ds h; omega
  | succ fuel ih =>
    intro n ds h
    simp only [Nat.toDigitsCore]
    by_cases h0 : n / 10 = 0
    · have hn : n < 10 := (Nat.div_eq_zero_iff (by omega)).mp h0
      rw [if_pos h0, Nat.mod_eq_of_lt hn, natDecimal_lt n hn]
      rfl
    · have hn : ¬n < 10 := fun hlt => h0 ((Nat.div_eq_zero_iff (by omega)).mpr hlt)
      have hlt : n / 10 < fuel := by
        have := Nat.div_lt_self (n := n) (by omega) (show 1 < 10 by omega)
        omega
      rw [if_neg h0, ih (n / 10) (Nat.digitChar (n % 10) :: ds) hlt,
        natDecimal_ge n hn, List.append_assoc]
      rfl

theorem repr_eq_natDecimal (n : Nat) : Nat.repr n = (natDecimal n).asString := by
  unfold Nat.repr Nat.toDigits
  rw [toDigitsCore_eq (n + 1) n [] (by omega), List.append_nil]

theorem digitChar_inj_lt (a b : Nat) (ha : a < 10) (hb : b < 10)
    (h : Nat.digitChar a = Nat.digitChar b) : a = b := by
  have key : ∀ x : Fin 10, ∀ y : Fin 10,
      Nat.digitChar x.val = Nat.digitChar y.val → x = y := by decide
  exact congrArg Fin.val (key ⟨a, ha⟩ ⟨b, hb⟩ h)

theorem natDecimal_ne_nil (n : Nat) : natDecimal n ≠ [] := by
  rw [natDecimal]
  by_cases h : n < 10
  · rw [if_pos h]
    simp
  · rw [if_neg h]
    simp

theorem natDecimal_inj : ∀ a b : Nat, natDecimal a = natDecimal b → a = b := by
  intro a
  induction a using Nat.strong_induction_on with
  | _ a ih =>
    intro b h
    by_cases ha : a < 10 <;> by_cases hb : b < 10
    · rw [natDecimal_lt a ha, natDecimal_lt b hb] at h
      injection h with h1 _
      exact digitChar_inj_lt a b ha hb h1
    · rw [natDecimal_lt a ha, natDecimal_ge b hb] at h
      have hlen := congrArg List.length h
      simp only [List.length_append, List.length_cons, List.length_nil] at hlen
      have h0 : (natDecimal (b / 10)).length = 0 := by omega
      exact absurd (List.length_eq_zero.mp h0) (natDecimal_ne_nil (b / 10))
    · rw [natDecimal_ge a ha, natDecimal_lt b hb] at h
      have hlen := congrArg List.length h
      simp only [List.length_append, List.length_cons, List.length_nil] at hlen
      have h0 : (natDecimal (a / 10)).length = 0 := by omega
      exact absurd (List.length_eq_zero.mp h0) (natDecimal_ne_nil (a / 10))
    · rw [natDecimal_ge a ha, natDecimal_ge b hb] at h
      obtain ⟨h1, h2⟩ := List.append_inj' h (by simp)
      injection h2 with h2 _
      have hmod := digitChar_inj_lt (a % 10) (b % 10)
        (Nat.mod_lt _ (by omega)) (Nat.mod_lt _ (by omega)) h2
      have hdiv := ih (a / 10) (Nat.div_lt_self (by omega) (by omega)) (b / 10) h1
      omega

theorem nat_repr_inj (a b : Nat) (h : Nat.repr a = Nat.repr b) : a = b := by
  rw [repr_eq_natDecimal, repr_eq_natDecimal] at h
  exact natDecimal_inj a b (congrArg String.data h)

/-! ## Lookup in the selection dictionary -/

theorem find?_enumFrom_eq (k : Nat) :
    ∀ (l : List ModelDescriptor) (start : Nat), start < k →
      ∀ m : ModelDescriptor, l.get? (k - start - 1) = some m →
      ((List.enumFrom start l).map (fun p => (Nat.repr (p.1 + 1), p.2))).find?
        (fun p => p.1 == Nat.repr k) = some (Nat.repr k, m) := by
  intro l
  induction l with
  | nil => intro start _ m hm; simp at hm
  | cons d t ih =>
    intro start hs m hm
    rw [List.enumFrom_cons, List.map_cons, List.find?_cons]
    by_cases hk : k = start + 1
    · subst hk
      have h0 : start + 1 - start - 1 = 0 := by omega
      rw [h0] at hm
      simp only [List.get?] at hm
      injection hm with hm
      subst hm
      simp
    · have hne : (Nat.repr (start + 1) == Nat.repr k) = false :=
        beq_eq_false_iff_ne.mpr (fun he => hk (nat_repr_inj _ _ he).symm)
      rw [hne]
      have hidx : k - start - 1 = (k - start - 2) + 1 := by omega
      rw [hidx, List.get?_cons_succ] at hm
      have hidx2 : k - (start + 1) - 1 = k - start - 2 := by omega
      exact ih (start + 1) (by omega) m (by rw [hidx2]; exact hm)

theorem model_dict_find?_some (l : List ModelDescriptor) (k : Nat) (hk : 1 ≤ k)
    (m : ModelDescriptor) (hget : l.get? (k - 1) = some m) :
    (model_dict l).find? (fun p => p.1 == Nat.repr k) = some (Nat.repr k, m) := by
  have h := find?_enumFrom_eq k l 0 (by omega) m (by simpa using hget)
  simpa [model_dict, List.enum] using h

theorem model_dict_find?_none (l : List ModelDescriptor) (choice : String)
    (h : ∀ k : Nat, 1 ≤ k → k ≤ l.length → choice ≠ Nat.repr k) :
    (model_dict l).find? (fun p => p.1 == choice) = none := by
  rw [List.find?_eq_none]
  intro x hx
  simp only [model_dict, List.mem_map] at hx
  obtain ⟨⟨i, d⟩, hp, rfl⟩ := hx
  have hb := List.mem_enumFrom hp
  intro hbe
  rw [beq_iff_eq] at hbe
  exact h (i + 1) (by omega) (by omega) hbe.symm

/-- Claim C5: for every (non-empty) model registry and input line, if the
stripped input is the decimal string of a 1-based index in range, the
selector returns that entry's identifier with no fallback notice; for any
other input it returns the first entry's identifier with a fallback notice —
in both cases a name is returned, never an error. -/
theorem select_model_resolution (models : List ModelDescriptor) (input : String)
    (hne : models ≠ []) :
    (∀ (k : Nat) (m : ModelDescriptor), 1 ≤ k → models.get? (k - 1) = some m →
      strip input = Nat.repr k →
      select_model models input = ⟨some m.name, false⟩) ∧
    ((∀ k : Nat, 1 ≤ k → k ≤ models.length → strip input ≠ Nat.repr k) →
      select_model models input = ⟨some (models.head hne).name, true⟩) := by
  constructor
  · intro k m hk hget hstrip
    simp only [select_model]
    rw [hstrip, model_dict_find?_some models k hk m hget]
  · intro hfb
    simp only [select_model]
    rw [model_dict_find?_none models (strip input) hfb, List.head?_eq_head hne]
    rfl

/-- Witness for C5: the configured nine-entry table, with the in-range
input `" 2 "` and the non-numeric input `"abc"`. -/
theorem select_model_resolution_witness :
    select_model MODELS " 2 " = ⟨some "dolphin-mixtral:8x7b", false⟩ ∧
    select_model MODELS "abc" = ⟨some "dolphin-llama3:70b", true⟩ := by
  constructor
  · have h := (select_model_resolution MODELS " 2 " (by decide)).1 2
      ⟨"dolphin-mixtral:8x7b", "Dolphin Mixtral 8x7B Uncensored",
        "EXCELLENT - Top reasoning & instruction following (~26GB RAM)"⟩
      (by omega) (by decide) (by decide)
    exact h
  · have h := (select_model_resolution MODELS "abc" (by decide)).2
      (by
        intro k hk1 hk2
        have h9 : k ≤ 9 := by
          have : MODELS.length = 9 := rfl
          omega
        interval_cases k <;> decide)
    exact h
